import Mathlib

/-!
# Essay editor (`src/app/page.js`): word counting and the essay record lifecycle

A shallow embedding of the `IELTSWritingApp` component.

* Text is a list of characters.  Every character that JavaScript treats as white space lies in
  the Basic Multilingual Plane and is one UTF-16 code unit, so counting words over code points
  and over UTF-16 code units agrees.
* The `useState` cells of the component form the record `State`.
* Every handler is a function from the state at the time of the event, together with the answers
  of the outside world (the `confirm` dialog, the storage responses), to the state after the
  handler has run to completion and the list of effects it issued, in order.
-/

namespace PrepWriting

/-! ## Text and word counting -/

/-- Text: a JavaScript string, as its list of characters. -/
abbrev Text := List Char

/-- The characters matched by the regular expression class `\s`, which are also exactly the
characters removed by `String.prototype.trim`: ECMAScript `WhiteSpace` (TAB, VT, FF, SP, NBSP,
ZWNBSP and the Unicode space separators) and `LineTerminator` (LF, CR, LS, PS). -/
def isWhiteSpace (c : Char) : Bool :=
  let n := c.toNat
  n == 0x0009 || n == 0x000A || n == 0x000B || n == 0x000C || n == 0x000D || n == 0x0020 ||
  n == 0x00A0 || n == 0x1680 || (0x2000 ≤ n && n ≤ 0x200A) || n == 0x2028 || n == 0x2029 ||
  n == 0x202F || n == 0x205F || n == 0x3000 || n == 0xFEFF

/-- `String.prototype.trim`: strip the leading and the trailing white space. -/
def trim (text : Text) : Text :=
  (text.dropWhile isWhiteSpace).rdropWhile isWhiteSpace

/-- The scanning loop of `String.prototype.split` for the separator `/\s+/`.
`cur` is the segment being collected (most recent character first); `inSep` tells that the
previous character was consumed by the separator match in progress (`+` is greedy, so one match
swallows a whole run of white space).  A separator match closes the current segment; the end of
the input closes the last one. -/
def splitAux : Text → Bool → Text → List Text
  | [], _, cur => [cur.reverse]
  | c :: cs, inSep, cur =>
    if isWhiteSpace c then
      if inSep then splitAux cs true cur
      else cur.reverse :: splitAux cs true []
    else splitAux cs false (c :: cur)

/-- `text.split(/\s+/)`. On the empty string the result is the one-element array `[""]`. -/
def split (text : Text) : List Text :=
  splitAux text false []

/-- The function `countWords` of the source:
`text.trim().split(/\s+/).filter((word) => word.length > 0).length`. -/
def countWords (text : Text) : Nat :=
  ((split (trim text)).filter (fun word => decide (word.length > 0))).length

/-- Number of maximal runs, counted structurally: a run starts at every non-white-space
character whose predecessor is white space (`prevWs` stands for the predecessor of the head). -/
def countRunsFrom : Bool → Text → Nat
  | _, [] => 0
  | prevWs, c :: cs =>
    (if prevWs && !isWhiteSpace c then 1 else 0) + countRunsFrom (isWhiteSpace c) cs

/-- The character at index `k` exists and is white space. -/
def wsAt (text : Text) (k : Nat) : Bool :=
  match text[k]? with
  | some c => isWhiteSpace c
  | none => false

/-- The character at index `k` exists and is not white space. -/
def nonWsAt (text : Text) (k : Nat) : Bool :=
  match text[k]? with
  | some c => !isWhiteSpace c
  | none => false

/-- Written from the specification: the half-open index interval `[i, j)` is a maximal run of
non-white-space characters of `text`. -/
def IsMaximalRun (text : Text) (i j : Nat) : Prop :=
  i < j ∧ j ≤ text.length ∧
  (∀ k < j, i ≤ k → nonWsAt text k = true) ∧
  (i = 0 ∨ wsAt text (i - 1) = true) ∧
  (j = text.length ∨ wsAt text j = true)

instance (text : Text) (i j : Nat) : Decidable (IsMaximalRun text i j) := by
  unfold IsMaximalRun; infer_instance

/-- Written from the specification: the number of maximal runs of non-white-space characters. -/
def countMaximalRuns (text : Text) : Nat :=
  ((Finset.range (text.length + 1) ×ˢ Finset.range (text.length + 1)).filter
    (fun p => IsMaximalRun text p.1 p.2)).card

/-- Index `i` starts a run: a non-white-space character at the start of the text (when `b`) or
right after a white-space character. -/
def startsRun (b : Bool) (text : Text) (i : Nat) : Bool :=
  nonWsAt text i && (if i = 0 then b else wsAt text (i - 1))

/-! ## Records, payloads and effects -/

/-- Identifier of a signed-in user (assigned by the authentication service). -/
abbrev UserId := Nat

/-- Identifier of a stored essay (assigned by the storage service). -/
abbrev EssayId := Nat

/-- The user object of a session; the component only reads its `id`. -/
structure User where
  id : UserId
deriving DecidableEq, Repr

/-- A row of the table `ielts_essays` as the storage service returns it. -/
structure Essay where
  id : EssayId
  title : Text
  content : Text
  word_count : Int
  user_id : UserId
  created_at : Nat
deriving DecidableEq, Repr

/-- The columns of the table `ielts_essays`. -/
inductive Column where
  | id | title | content | word_count | user_id | created_at
deriving DecidableEq, Repr

/-- A value written to a column. -/
inductive Value where
  | text (t : Text)
  | int (n : Int)
  | nat (n : Nat)
deriving DecidableEq, Repr

/-- An object literal sent to the storage service: its keys with their values, in order. -/
abbrev Payload := List (Column × Value)

/-- The requests the component sends to the storage service. -/
inductive Request where
  /-- `from("ielts_essays").select("*").order("created_at", ...)`. -/
  | select
  /-- `from("ielts_essays").insert(data).select().single()`. -/
  | insert (data : Payload)
  /-- `from("ielts_essays").update(data).eq("id", id).select().single()`. -/
  | update (data : Payload) (id : EssayId)
  /-- `from("ielts_essays").delete().eq("id", id)`. -/
  | delete (id : EssayId)
deriving DecidableEq, Repr

/-- What a handler does to the outside world, in the order it does it. -/
inductive Effect where
  | request (r : Request)
  | alert (msg : String)
  | consoleError (msg : String)
  /-- The `confirm` dialog of `handleDeleteEssay`, which quotes the essay title. -/
  | confirm (essayTitle : Text)
  | getUser
  | signOut
  | routerPush (path : String)
deriving DecidableEq, Repr

/-- The storage requests among a list of effects. -/
def requestsOf : List Effect → List Request
  | [] => []
  | .request r :: rest => r :: requestsOf rest
  | _ :: rest => requestsOf rest

/-- The answer `{ data, error }` to the `select` request. -/
structure LoadResponse where
  data : Option (List Essay)
  error : Bool
deriving DecidableEq, Repr

/-- The answer `{ data, error }` to an `insert` or `update` request ending in `.single()`. -/
structure SaveResponse where
  data : Option Essay
  error : Bool
deriving DecidableEq, Repr

/-- The answer `{ error }` to a `delete` request. -/
structure DeleteResponse where
  error : Bool
deriving DecidableEq, Repr

/-! ## Component state and handlers -/

/-- The `useState` cells of `IELTSWritingApp`. -/
structure State where
  user : Option User
  essays : List Essay
  selectedEssay : Option Essay
  title : Text
  content : Text
  wordCount : Int
  isLoading : Bool
  isSaving : Bool
deriving DecidableEq, Repr

/-- The state of the first render: the initial values given to `useState`. -/
def initialState : State :=
  { user := none, essays := [], selectedEssay := none, title := [], content := [],
    wordCount := 0, isLoading := false, isSaving := false }

/-- `loadEssays`: raise the loading flag, request the list; on an error the `throw` skips
`setEssays` and the `catch` only logs; otherwise the list becomes `data || []`; `finally` clears
the loading flag. -/
def loadEssays (s : State) (l : LoadResponse) : State × List Effect :=
  let s1 := { s with isLoading := true }
  if l.error then
    ({ s1 with isLoading := false },
      [.request .select, .consoleError "Error loading essays:"])
  else
    ({ s1 with essays := l.data.getD [], isLoading := false }, [.request .select])

/-- `checkUser`: ask for the current user; when there is one, store it and load the essays. -/
def checkUser (s : State) (u : Option User) (l : LoadResponse) : State × List Effect :=
  match u with
  | some usr =>
    let (s1, effs) := loadEssays { s with user := some usr } l
    (s1, .getUser :: effs)
  | none => (s, [.getUser])

/-- The callback given to `onAuthStateChange`, called with the user of the session (if any). -/
def onAuthStateChange (s : State) (sessionUser : Option User) (l : LoadResponse) :
    State × List Effect :=
  match sessionUser with
  | some usr => loadEssays { s with user := some usr } l
  | none => ({ s with user := none, essays := [] }, [])

/-- The `onChange` of the title input: `setTitle(e.target.value)`. -/
def setTitle (s : State) (newTitle : Text) : State :=
  { s with title := newTitle }

/-- `handleContentChange`. -/
def handleContentChange (s : State) (newContent : Text) : State :=
  { s with content := newContent, wordCount := (countWords newContent : Nat) }

/-- The object literal `essayData` built by `handleSave`. -/
def essayData (s : State) (usr : User) : Payload :=
  [(.title, .text (trim s.title)),
   (.content, .text (trim s.content)),
   (.word_count, .int s.wordCount),
   (.user_id, .nat usr.id)]

/-- `handleSave`.  `r` answers the insert or update request, `l` the reload that follows a
success.  Reading `user.id` while `user` is `null` throws inside the `try`, so that case ends in
the `catch` before any request is sent. -/
def handleSave (s : State) (r : SaveResponse) (l : LoadResponse) : State × List Effect :=
  if trim s.title = [] ∨ trim s.content = [] then
    (s, [.alert "Please enter both title and content"])
  else
    let s1 := { s with isSaving := true }
    match s.user with
    | none =>
      ({ s1 with isSaving := false },
        [.consoleError "Error saving essay:", .alert "Error saving essay. Please try again."])
    | some usr =>
      let req :=
        match s.selectedEssay with
        | some e => Request.update (essayData s usr) e.id
        | none => Request.insert (essayData s usr)
      if r.error then
        ({ s1 with isSaving := false },
          [.request req, .consoleError "Error saving essay:",
            .alert "Error saving essay. Please try again."])
      else
        let (s2, effs) := loadEssays s1 l
        ({ s2 with selectedEssay := r.data, isSaving := false },
          .request req :: effs ++ [.alert "Essay saved successfully!"])

/-- `handleNewEssay`. -/
def handleNewEssay (s : State) : State :=
  { s with selectedEssay := none, title := [], content := [], wordCount := 0 }

/-- `handleSelectEssay`. -/
def handleSelectEssay (s : State) (essay : Essay) : State :=
  { s with selectedEssay := some essay, title := essay.title, content := essay.content,
           wordCount := essay.word_count }

/-- `handleEditEssay`. -/
def handleEditEssay (s : State) (essay : Essay) : State :=
  { s with selectedEssay := some essay, title := essay.title, content := essay.content,
           wordCount := essay.word_count }

/-- `handleSignOut`: it changes no state cell itself; the state changes when the authentication
service then calls the `onAuthStateChange` callback. -/
def handleSignOut (s : State) : State × List Effect :=
  (s, [.signOut, .routerPush "/auth/login"])

/-- `handleDeleteEssay`.  `confirmed` is the answer to the `confirm` dialog, `d` answers the
delete request, `l` the reload that follows a success. -/
def handleDeleteEssay (s : State) (essayId : EssayId) (essayTitle : Text) (confirmed : Bool)
    (d : DeleteResponse) (l : LoadResponse) : State × List Effect :=
  if !confirmed then
    (s, [.confirm essayTitle])
  else if d.error then
    (s, [.confirm essayTitle, .request (.delete essayId),
      .consoleError "Error deleting essay:", .alert "Error deleting essay. Please try again."])
  else
    let s1 := if s.selectedEssay.map (fun e => e.id) = some essayId then handleNewEssay s else s
    let (s2, effs) := loadEssays s1 l
    (s2, .confirm essayTitle :: .request (.delete essayId) :: effs
      ++ [.alert "Essay deleted successfully!"])

/-! ## Events and reachable states -/

/-- One event of the component, with the answers of the outside world it meets. -/
inductive Event where
  | checkUser (u : Option User) (l : LoadResponse)
  | authStateChange (sessionUser : Option User) (l : LoadResponse)
  | titleChange (newTitle : Text)
  | contentChange (newContent : Text)
  | save (r : SaveResponse) (l : LoadResponse)
  | newEssay
  | selectEssay (essay : Essay)
  | editEssay (essay : Essay)
  | signOut
  | deleteEssay (essayId : EssayId) (essayTitle : Text) (confirmed : Bool)
      (d : DeleteResponse) (l : LoadResponse)

/-- Run the handler of an event. -/
def step (s : State) : Event → State × List Effect
  | .checkUser u l => checkUser s u l
  | .authStateChange u l => onAuthStateChange s u l
  | .titleChange t => (setTitle s t, [])
  | .contentChange c => (handleContentChange s c, [])
  | .save r l => handleSave s r l
  | .newEssay => (handleNewEssay s, [])
  | .selectEssay e => (handleSelectEssay s e, [])
  | .editEssay e => (handleEditEssay s e, [])
  | .signOut => handleSignOut s
  | .deleteEssay i t c d l => handleDeleteEssay s i t c d l

/-- Every essay of a list answer is a record the storage service may return (`P`). -/
def LoadResponse.Valid (P : Essay → Prop) (l : LoadResponse) : Prop :=
  ∀ es, l.data = some es → ∀ e ∈ es, P e

/-- An answer to `.single()` without an error carries exactly one row, and that row is a record
the storage service may return (`P`). -/
def SaveResponse.Valid (P : Essay → Prop) (r : SaveResponse) : Prop :=
  r.error = false → ∃ e, r.data = some e ∧ P e

/-- The events that can occur in state `s` when the storage service only returns records
satisfying `P`: the select and edit buttons exist for the essays of the current list only. -/
def Event.Admissible (P : Essay → Prop) (s : State) : Event → Prop
  | .checkUser _ l => l.Valid P
  | .authStateChange _ l => l.Valid P
  | .save r l => r.Valid P ∧ l.Valid P
  | .selectEssay e => e ∈ s.essays
  | .editEssay e => e ∈ s.essays
  | .deleteEssay _ _ _ _ l => l.Valid P
  | _ => True

/-- The states the component can be in, starting from the first render, when the storage service
only returns records satisfying `P`. -/
inductive Reachable (P : Essay → Prop) : State → Prop where
  | init : Reachable P initialState
  | step (s : State) (ev : Event) :
      Reachable P s → ev.Admissible P s → Reachable P (step s ev).1

/-- The stored word count of a record agrees with its content. -/
def Essay.Consistent (e : Essay) : Prop :=
  e.word_count = (countWords e.content : Nat)

/-- Modelled from the spec: the operation `update record by id` of the storage service with a
set of fields, which is not part of this repository.  Writing one column of a row replaces that
column and no other; a value of the wrong type is not written. -/
def Essay.setColumn (e : Essay) : Column → Value → Essay
  | .id, .nat n => { e with id := n }
  | .title, .text t => { e with title := t }
  | .content, .text t => { e with content := t }
  | .word_count, .int n => { e with word_count := n }
  | .user_id, .nat n => { e with user_id := n }
  | .created_at, .nat n => { e with created_at := n }
  | _, _ => e

/-- Modelled from the spec: the row after the storage service has applied an update payload to
it, column by column (the storage service is not part of this repository). -/
def applyUpdate (e : Essay) (data : Payload) : Essay :=
  data.foldl (fun row cv => row.setColumn cv.1 cv.2) e

/-! ## Concrete sessions -/

/-- A signed-in user. -/
def userOne : User := { id := 1 }

/-- A list answer without rows. -/
def emptyList : LoadResponse := { data := some [], error := false }

/-- A failed list request. -/
def failedList : LoadResponse := { data := none, error := true }

/-- The draft of the scenario of the specification: the user signs in, has no essays, and types
the title `Band 9` and one sentence of eight words. -/
def bandNineDraft : State :=
  (step (step (step initialState
    (.authStateChange (some userOne) emptyList)).1
    (.titleChange "Band 9".toList)).1
    (.contentChange "The rapid growth of cities has created challenges.".toList)).1

/-- The row the storage service creates for `bandNineDraft`. -/
def bandNineEssay : Essay :=
  { id := 41, title := "Band 9".toList,
    content := "The rapid growth of cities has created challenges.".toList,
    word_count := 8, user_id := 1, created_at := 1000 }

/-- The user signs in, the list holds `bandNineEssay`, the user selects it and appends a second
sentence to its content. -/
def bandNineEdited : State :=
  (step (step (step initialState
    (.authStateChange (some userOne) { data := some [bandNineEssay], error := false })).1
    (.selectEssay bandNineEssay)).1
    (.contentChange
      "The rapid growth of cities has created challenges. Governments must respond.".toList)).1

/-- A row whose stored word count (5) is not the number of words of its content (2), such as a
row written by another client of the same table. -/
def staleEssay : Essay :=
  { id := 7, title := "Cities".toList, content := "a b".toList,
    word_count := 5, user_id := 1, created_at := 900 }

/-- The user signs in, the list holds `staleEssay`, and the user selects it. -/
def staleSelected : State :=
  (step (step initialState
    (.authStateChange (some userOne) { data := some [staleEssay], error := false })).1
    (.selectEssay staleEssay)).1

/-- The user signs in, the list holds `bandNineEssay` and `staleEssay`, and the user selects
`bandNineEssay`. -/
def bandNineAmongTwo : State :=
  (step (step initialState
    (.authStateChange (some userOne)
      { data := some [bandNineEssay, staleEssay], error := false })).1
    (.selectEssay bandNineEssay)).1

/-- A draft whose title consists of white space only. -/
def blankTitleDraft : State :=
  (step (step (step initialState
    (.authStateChange (some userOne) emptyList)).1
    (.titleChange "   ".toList)).1
    (.contentChange "a b".toList)).1

/-! ## Word counting: the runs of a text -/

theorem nonWsAt_cons_succ (c : Char) (s : Text) (i : Nat) :
    nonWsAt (c :: s) (i + 1) = nonWsAt s i := by
  simp [nonWsAt]

theorem wsAt_cons_succ (c : Char) (s : Text) (i : Nat) :
    wsAt (c :: s) (i + 1) = wsAt s i := by
  simp [wsAt]

theorem startsRun_cons_succ (b : Bool) (c : Char) (s : Text) (i : Nat) :
    startsRun b (c :: s) (i + 1) = startsRun (isWhiteSpace c) s i := by
  cases i with
  | zero => simp [startsRun, nonWsAt, wsAt]
  | succ i => simp [startsRun, nonWsAt, wsAt]

theorem card_startsRun (s : Text) : ∀ b : Bool,
    ((Finset.range s.length).filter (fun i => startsRun b s i = true)).card
      = countRunsFrom b s := by
  induction s with
  | nil => intro b; simp [countRunsFrom]
  | cons c s ih =>
    intro b
    rw [Finset.card_filter, List.length_cons, Finset.sum_range_succ']
    simp only [startsRun_cons_succ]
    rw [← Finset.card_filter, ih, countRunsFrom, Nat.add_comm]
    congr 1
    cases b <;> cases h : isWhiteSpace c <;> simp [startsRun, nonWsAt, h]


theorem nonWsAt_lt {s : Text} {k : Nat} (h : nonWsAt s k = true) : k < s.length := by
  by_contra hk
  have : s[k]? = none := List.getElem?_eq_none (Nat.le_of_not_lt hk)
  simp [nonWsAt, this] at h

theorem wsAt_lt {s : Text} {k : Nat} (h : wsAt s k = true) : k < s.length := by
  by_contra hk
  have : s[k]? = none := List.getElem?_eq_none (Nat.le_of_not_lt hk)
  simp [wsAt, this] at h

theorem nonWsAt_of_not_wsAt {s : Text} {k : Nat} (hk : k < s.length) (h : wsAt s k = false) :
    nonWsAt s k = true := by
  have : s[k]? = some s[k] := List.getElem?_eq_getElem hk
  simp [wsAt, this] at h
  simp [nonWsAt, this, h]

theorem not_wsAt_of_nonWsAt {s : Text} {k : Nat} (h : nonWsAt s k = true) : wsAt s k = false := by
  have hk := nonWsAt_lt h
  have : s[k]? = some s[k] := List.getElem?_eq_getElem hk
  simp [nonWsAt, this] at h
  simp [wsAt, this, h]

theorem IsMaximalRun.starts {s : Text} {i j : Nat} (h : IsMaximalRun s i j) :
    startsRun true s i = true := by
  obtain ⟨hij, _, hall, hstart, _⟩ := h
  have h1 := hall i hij (Nat.le_refl i)
  by_cases hi : i = 0
  · subst hi; simp [PrepWriting.startsRun, h1]
  · rcases hstart with h0 | h0
    · exact absurd h0 hi
    · simp [PrepWriting.startsRun, h1, hi, h0]

theorem IsMaximalRun.end_le {s : Text} {i j j' : Nat} (h : IsMaximalRun s i j)
    (h' : IsMaximalRun s i j') : j ≤ j' := by
  by_contra hlt
  have hlt : j' < j := Nat.lt_of_not_le hlt
  obtain ⟨_, hjl, hall, _, _⟩ := h
  obtain ⟨hij', _, _, _, hend'⟩ := h'
  have h1 := hall j' hlt (Nat.le_of_lt hij')
  rcases hend' with h0 | h0
  · omega
  · rw [not_wsAt_of_nonWsAt h1] at h0; exact Bool.false_ne_true h0

theorem IsMaximalRun.end_unique {s : Text} {i j j' : Nat} (h : IsMaximalRun s i j)
    (h' : IsMaximalRun s i j') : j = j' :=
  Nat.le_antisymm (h.end_le h') (h'.end_le h)

theorem exists_isMaximalRun {s : Text} {i : Nat} (h : startsRun true s i = true) :
    ∃ j, IsMaximalRun s i j := by
  have hnw : nonWsAt s i = true := by
    simp [startsRun] at h; exact h.1
  have hst : i = 0 ∨ wsAt s (i - 1) = true := by
    by_cases hi : i = 0
    · exact Or.inl hi
    · simp [startsRun, hi] at h; exact Or.inr h.2
  have hil := nonWsAt_lt hnw
  have hex : ∃ j, i < j ∧ (j = s.length ∨ wsAt s j = true) := ⟨s.length, hil, Or.inl rfl⟩
  refine ⟨Nat.find hex, (Nat.find_spec hex).1, ?_, ?_, hst, (Nat.find_spec hex).2⟩
  · exact Nat.find_min' hex ⟨hil, Or.inl rfl⟩
  · intro k hk hik
    rcases Nat.eq_or_lt_of_le hik with rfl | hlt
    · exact hnw
    · have hmin := Nat.find_min hex hk
      have hkl : k < s.length :=
        Nat.lt_of_lt_of_le hk (Nat.find_min' hex ⟨hil, Or.inl rfl⟩)
      apply nonWsAt_of_not_wsAt hkl
      cases hw : wsAt s k
      · rfl
      · exact absurd ⟨hlt, Or.inr hw⟩ hmin

theorem card_runs_from (s : Text) (i : Nat) :
    ((Finset.range (s.length + 1)).filter (fun j => IsMaximalRun s i j)).card
      = if startsRun true s i = true then 1 else 0 := by
  split
  · next h =>
    obtain ⟨j, hj⟩ := exists_isMaximalRun h
    rw [Finset.card_eq_one]
    refine ⟨j, ?_⟩
    ext j'
    simp only [Finset.mem_filter, Finset.mem_range, Finset.mem_singleton]
    constructor
    · rintro ⟨_, h'⟩; exact h'.end_unique hj
    · rintro rfl; exact ⟨Nat.lt_succ_of_le hj.2.1, hj⟩
  · next h =>
    rw [Finset.card_eq_zero, Finset.filter_eq_empty_iff]
    intro j _ hj
    exact h hj.starts

theorem countMaximalRuns_eq_countRunsFrom (s : Text) :
    countMaximalRuns s = countRunsFrom true s := by
  unfold countMaximalRuns
  rw [Finset.card_filter, Finset.sum_product]
  simp only [← Finset.card_filter, card_runs_from]
  rw [← card_startsRun]
  congr 1
  ext i
  simp only [Finset.mem_filter, Finset.mem_range]
  constructor
  · rintro ⟨_, h⟩
    refine ⟨nonWsAt_lt ?_, h⟩
    simp [startsRun] at h; exact h.1
  · rintro ⟨hi, h⟩; exact ⟨Nat.lt_succ_of_lt hi, h⟩


theorem count_splitAux (s : Text) : ∀ (inSep : Bool) (cur : Text), (inSep = true → cur = []) →
    ((splitAux s inSep cur).filter (fun word => decide (word.length > 0))).length
      = if cur = [] then countRunsFrom true s else 1 + countRunsFrom false s := by
  induction s with
  | nil =>
    intro inSep cur _
    cases cur <;> simp [splitAux, countRunsFrom]
  | cons c cs ih =>
    intro inSep cur hsep
    cases hc : isWhiteSpace c
    · have h1 := ih false (c :: cur) (by simp)
      cases cur <;> simp [splitAux, hc, countRunsFrom, h1]
    · have h1 := ih true [] (by simp)
      cases inSep
      · cases cur <;> simp [splitAux, hc, countRunsFrom, h1]
        omega
      · have hcur := hsep rfl
        subst hcur
        simp [splitAux, hc, countRunsFrom, h1]

theorem countRunsFrom_dropWhile (s : Text) :
    countRunsFrom true (s.dropWhile isWhiteSpace) = countRunsFrom true s := by
  induction s with
  | nil => rfl
  | cons c cs ih =>
    cases hc : isWhiteSpace c
    · simp [List.dropWhile, hc]
    · simp [List.dropWhile, hc, countRunsFrom, ih]

theorem countRunsFrom_append_ws (s : Text) (c : Char) (hc : isWhiteSpace c = true) :
    ∀ b, countRunsFrom b (s ++ [c]) = countRunsFrom b s := by
  induction s with
  | nil => intro b; simp [countRunsFrom, hc]
  | cons d ds ih => intro b; simp [countRunsFrom, ih]

theorem countRunsFrom_rdropWhile (s : Text) (b : Bool) :
    countRunsFrom b (s.rdropWhile isWhiteSpace) = countRunsFrom b s := by
  induction s using List.reverseRecOn with
  | nil => rfl
  | append_singleton s c ih =>
    cases hc : isWhiteSpace c
    · rw [List.rdropWhile_concat_neg]; simp [hc]
    · rw [List.rdropWhile_concat_pos _ _ _ hc, ih, countRunsFrom_append_ws s c hc]

theorem countRunsFrom_trim (s : Text) : countRunsFrom true (trim s) = countRunsFrom true s := by
  rw [trim, countRunsFrom_rdropWhile, countRunsFrom_dropWhile]

theorem countWords_eq_countRunsFrom (s : Text) : countWords s = countRunsFrom true s := by
  rw [countWords, split, count_splitAux _ _ _ (by simp)]
  simp [countRunsFrom_trim]

theorem countWords_trim (s : Text) : countWords (trim s) = countWords s := by
  rw [countWords_eq_countRunsFrom, countWords_eq_countRunsFrom, countRunsFrom_trim]

/-! ## Handlers: what each one leaves alone -/

theorem loadEssays_selectedEssay (s : State) (l : LoadResponse) :
    (loadEssays s l).1.selectedEssay = s.selectedEssay := by
  unfold loadEssays; split <;> rfl

theorem loadEssays_title (s : State) (l : LoadResponse) :
    (loadEssays s l).1.title = s.title := by
  unfold loadEssays; split <;> rfl

theorem loadEssays_content (s : State) (l : LoadResponse) :
    (loadEssays s l).1.content = s.content := by
  unfold loadEssays; split <;> rfl

theorem loadEssays_wordCount (s : State) (l : LoadResponse) :
    (loadEssays s l).1.wordCount = s.wordCount := by
  unfold loadEssays; split <;> rfl

theorem loadEssays_essays_valid {P : Essay → Prop} (s : State) (l : LoadResponse)
    (hl : l.Valid P) (hs : ∀ e ∈ s.essays, P e) : ∀ e ∈ (loadEssays s l).1.essays, P e := by
  unfold loadEssays
  split
  · exact hs
  · cases hd : l.data with
    | none => simp
    | some es => simpa [hd] using hl es hd

theorem countWords_nil : countWords [] = 0 := by decide

/-! ## Invariants of the reachable states -/

/-- While no essay is selected the displayed word count is the word count of the draft. -/
theorem Reachable.wordCount_of_no_selection {P : Essay → Prop} {s : State}
    (h : Reachable P s) :
    s.selectedEssay = none → s.wordCount = (countWords s.content : Nat) := by
  induction h with
  | init => intro _; simp [initialState, countWords_nil]
  | step s ev _ hadm ih =>
    cases ev with
    | checkUser u l =>
      cases u with
      | none => simpa [PrepWriting.step, checkUser] using ih
      | some usr =>
        simpa [PrepWriting.step, checkUser, loadEssays_selectedEssay, loadEssays_content,
          loadEssays_wordCount] using ih
    | authStateChange u l =>
      cases u with
      | none => simpa [PrepWriting.step, onAuthStateChange] using ih
      | some usr =>
        simpa [PrepWriting.step, onAuthStateChange, loadEssays_selectedEssay,
          loadEssays_content, loadEssays_wordCount] using ih
    | titleChange t => simpa [PrepWriting.step, setTitle] using ih
    | contentChange c => simp [PrepWriting.step, handleContentChange]
    | save r l =>
      obtain ⟨hr, _⟩ := hadm
      simp only [PrepWriting.step, handleSave]
      split
      · exact ih
      · split
        · exact ih
        · split
          · exact ih
          · next herr =>
            obtain ⟨e, he, _⟩ := hr (by simpa using herr)
            simp [he]
    | newEssay => simp [PrepWriting.step, handleNewEssay, countWords_nil]
    | selectEssay e => simp [PrepWriting.step, handleSelectEssay]
    | editEssay e => simp [PrepWriting.step, handleEditEssay]
    | signOut => simpa [PrepWriting.step, handleSignOut] using ih
    | deleteEssay i t c d l =>
      simp only [PrepWriting.step, handleDeleteEssay]
      split
      · exact ih
      · split
        · exact ih
        · simp only [loadEssays_selectedEssay, loadEssays_content, loadEssays_wordCount]
          split
          · simp [handleNewEssay, countWords_nil]
          · exact ih

/-- Every essay of the list is a record the storage service returned. -/
theorem Reachable.essays_valid {P : Essay → Prop} {s : State} (h : Reachable P s) :
    ∀ e ∈ s.essays, P e := by
  induction h with
  | init => simp [initialState]
  | step s ev _ hadm ih =>
    cases ev with
    | checkUser u l =>
      cases u with
      | none => simpa [PrepWriting.step, checkUser] using ih
      | some usr => exact loadEssays_essays_valid _ l hadm ih
    | authStateChange u l =>
      cases u with
      | none => simp [PrepWriting.step, onAuthStateChange]
      | some usr => exact loadEssays_essays_valid _ l hadm ih
    | titleChange t => simpa [PrepWriting.step, setTitle] using ih
    | contentChange c => simpa [PrepWriting.step, handleContentChange] using ih
    | save r l =>
      obtain ⟨_, hl⟩ := hadm
      simp only [PrepWriting.step, handleSave]
      split
      · exact ih
      · split
        · exact ih
        · split
          · exact ih
          · exact loadEssays_essays_valid _ l hl ih
    | newEssay => simpa [PrepWriting.step, handleNewEssay] using ih
    | selectEssay e => simpa [PrepWriting.step, handleSelectEssay] using ih
    | editEssay e => simpa [PrepWriting.step, handleEditEssay] using ih
    | signOut => simpa [PrepWriting.step, handleSignOut] using ih
    | deleteEssay i t c d l =>
      simp only [PrepWriting.step, handleDeleteEssay]
      split
      · exact ih
      · split
        · exact ih
        · apply loadEssays_essays_valid _ l hadm
          split
          · simpa [handleNewEssay] using ih
          · exact ih

/-- The displayed word count is either the word count of the draft content, or the stored word
count of a record of the storage service whose content is the draft content. -/
theorem Reachable.wordCount_source {P : Essay → Prop} {s : State} (h : Reachable P s) :
    s.wordCount = (countWords s.content : Nat) ∨
      ∃ e, P e ∧ s.content = e.content ∧ s.wordCount = e.word_count := by
  induction h with
  | init => left; simp [initialState, countWords_nil]
  | step s ev hs hadm ih =>
    cases ev with
    | checkUser u l =>
      cases u with
      | none => simpa [PrepWriting.step, checkUser] using ih
      | some usr =>
        simpa [PrepWriting.step, checkUser, loadEssays_content, loadEssays_wordCount] using ih
    | authStateChange u l =>
      cases u with
      | none => simpa [PrepWriting.step, onAuthStateChange] using ih
      | some usr =>
        simpa [PrepWriting.step, onAuthStateChange, loadEssays_content, loadEssays_wordCount]
          using ih
    | titleChange t => simpa [PrepWriting.step, setTitle] using ih
    | contentChange c => left; simp [PrepWriting.step, handleContentChange]
    | save r l =>
      simp only [PrepWriting.step, handleSave]
      split
      · exact ih
      · split
        · exact ih
        · split
          · exact ih
          · simpa [loadEssays_content, loadEssays_wordCount] using ih
    | newEssay => left; simp [PrepWriting.step, handleNewEssay, countWords_nil]
    | selectEssay e =>
      right
      exact ⟨e, hs.essays_valid e hadm, rfl, rfl⟩
    | editEssay e =>
      right
      exact ⟨e, hs.essays_valid e hadm, rfl, rfl⟩
    | signOut => simpa [PrepWriting.step, handleSignOut] using ih
    | deleteEssay i t c d l =>
      simp only [PrepWriting.step, handleDeleteEssay]
      split
      · exact ih
      · split
        · exact ih
        · simp only [loadEssays_content, loadEssays_wordCount]
          split
          · left; simp [handleNewEssay, countWords_nil]
          · exact ih

/-- The requests `handleSave` sends once the validation has passed and a user is signed in. -/
theorem requestsOf_handleSave (s : State) (usr : User) (r : SaveResponse) (l : LoadResponse)
    (hvalid : trim s.title ≠ [] ∧ trim s.content ≠ []) (husr : s.user = some usr) :
    requestsOf (handleSave s r l).2 =
      (match s.selectedEssay with
        | some e => Request.update (essayData s usr) e.id
        | none => Request.insert (essayData s usr)) :: (if r.error then [] else [.select]) := by
  have hv : ¬ (trim s.title = [] ∨ trim s.content = []) := by
    rintro (h | h)
    · exact hvalid.1 h
    · exact hvalid.2 h
  cases herr : r.error <;> cases hlerr : l.error <;>
    simp [handleSave, hv, husr, herr, hlerr, loadEssays, requestsOf]

/-! ## The claims -/

/-- C1: for every text, `countWords text` is the number of maximal runs of non-white-space
characters of `text`, which is also that of the trimmed text; `countWords ""` is 0 and
`countWords "  a   b  "` is 2. -/
theorem countWords_eq_countMaximalRuns (text : Text) :
    countWords text = countMaximalRuns text ∧
    countWords text = countMaximalRuns (trim text) ∧
    countWords "".toList = 0 ∧ countWords "  a   b  ".toList = 2 := by
  refine ⟨?_, ?_, by decide, by decide⟩
  · rw [countWords_eq_countRunsFrom, countMaximalRuns_eq_countRunsFrom]
  · rw [countWords_eq_countRunsFrom, countMaximalRuns_eq_countRunsFrom, countRunsFrom_trim]

/-- C2: in every reachable state, whatever records the storage service has returned, a
`handleSave` that passes validation with no essay selected sends one insert request, and the
`word_count` of the inserted record is `countWords` of the trimmed draft content. -/
theorem handleSave_insert_word_count (P : Essay → Prop) (s : State) (usr : User)
    (r : SaveResponse) (l : LoadResponse) (hreach : Reachable P s)
    (hvalid : trim s.title ≠ [] ∧ trim s.content ≠ [])
    (hsel : s.selectedEssay = none) (husr : s.user = some usr) :
    requestsOf (handleSave s r l).2 =
      Request.insert
        [(.title, .text (trim s.title)),
         (.content, .text (trim s.content)),
         (.word_count, .int (countWords (trim s.content) : Nat)),
         (.user_id, .nat usr.id)] :: (if r.error then [] else [.select]) := by
  rw [requestsOf_handleSave s usr r l hvalid husr, hsel, essayData,
    hreach.wordCount_of_no_selection hsel, countWords_trim]

/-- C2, at the scenario of the specification: the draft `Band 9` is reachable, passes validation,
and is inserted with `word_count` 8. -/
theorem handleSave_insert_word_count_witness :
    Reachable (fun _ => True) bandNineDraft ∧
    (trim bandNineDraft.title ≠ [] ∧ trim bandNineDraft.content ≠ []) ∧
    bandNineDraft.selectedEssay = none ∧ bandNineDraft.user = some userOne ∧
    requestsOf (handleSave bandNineDraft { data := some bandNineEssay, error := false }
        { data := some [bandNineEssay], error := false }).2 =
      [Request.insert
        [(.title, .text "Band 9".toList),
         (.content, .text "The rapid growth of cities has created challenges.".toList),
         (.word_count, .int 8),
         (.user_id, .nat 1)], Request.select] := by
  have hreach : Reachable (fun _ => True) bandNineDraft :=
    Reachable.step _ _ (Reachable.step _ _ (Reachable.step _ _ Reachable.init
      (by simp [Event.Admissible, LoadResponse.Valid])) trivial) trivial
  have hvalid : trim bandNineDraft.title ≠ [] ∧ trim bandNineDraft.content ≠ [] := by decide
  exact ⟨hreach, hvalid, rfl, rfl,
    (handleSave_insert_word_count (fun _ => True) bandNineDraft userOne _ _ hreach hvalid
      rfl rfl).trans (by decide)⟩

/-- C3, as stated, fails: `staleSelected` is reachable and passes validation with `staleEssay`
selected; `handleSave` then writes the stored `word_count` 5, although the trimmed draft content
`a b` has 2 words. -/
theorem handleSave_update_carries_stored_word_count :
    Reachable (fun _ => True) staleSelected ∧
    (trim staleSelected.title ≠ [] ∧ trim staleSelected.content ≠ []) ∧
    staleSelected.selectedEssay = some staleEssay ∧ staleSelected.user = some userOne ∧
    requestsOf (handleSave staleSelected { data := some staleEssay, error := false }
        { data := some [staleEssay], error := false }).2 =
      [Request.update
        [(.title, .text "Cities".toList),
         (.content, .text "a b".toList),
         (.word_count, .int 5),
         (.user_id, .nat 1)] 7, Request.select] ∧
    countWords (trim staleSelected.content) = 2 := by
  refine ⟨?_, by decide, rfl, rfl, by decide, by decide⟩
  exact Reachable.step _ _ (Reachable.step _ _ Reachable.init
    (by simp [Event.Admissible, LoadResponse.Valid]))
    (by show staleEssay ∈ [staleEssay]; exact List.mem_singleton.mpr rfl)

/-- C3, amended: in every reachable state a `handleSave` that passes validation with an essay
selected sends one update request whose `word_count` is the `wordCount` state; that value is
`countWords` of the trimmed draft content, or else the stored `word_count` of a record of the
storage service whose content is the draft content; so it is `countWords` of the trimmed draft
content whenever every record the storage service returns has a stored `word_count` that agrees
with its content. -/
theorem handleSave_update_word_count (P : Essay → Prop) (s : State) (usr : User) (e : Essay)
    (r : SaveResponse) (l : LoadResponse) (hreach : Reachable P s)
    (hvalid : trim s.title ≠ [] ∧ trim s.content ≠ [])
    (hsel : s.selectedEssay = some e) (husr : s.user = some usr) :
    requestsOf (handleSave s r l).2 =
      Request.update
        [(.title, .text (trim s.title)),
         (.content, .text (trim s.content)),
         (.word_count, .int s.wordCount),
         (.user_id, .nat usr.id)] e.id :: (if r.error then [] else [.select]) ∧
    (s.wordCount = (countWords (trim s.content) : Nat) ∨
      ∃ e', P e' ∧ s.content = e'.content ∧ s.wordCount = e'.word_count) ∧
    ((∀ e', P e' → e'.Consistent) → s.wordCount = (countWords (trim s.content) : Nat)) := by
  refine ⟨?_, ?_, ?_⟩
  · rw [requestsOf_handleSave s usr r l hvalid husr, hsel, essayData]
  · rw [countWords_trim]; exact hreach.wordCount_source
  · intro hP
    rw [countWords_trim]
    rcases hreach.wordCount_source with h | ⟨e', he', hc, hw⟩
    · exact h
    · rw [hw, hc]; exact hP e' he'

/-- C3, amended, at the scenario of the specification: the essay `Band 9` is selected, a second
sentence is appended, and the update is sent with `word_count` 11. -/
theorem handleSave_update_word_count_witness :
    Reachable Essay.Consistent bandNineEdited ∧
    (trim bandNineEdited.title ≠ [] ∧ trim bandNineEdited.content ≠ []) ∧
    bandNineEdited.selectedEssay = some bandNineEssay ∧ bandNineEdited.user = some userOne ∧
    requestsOf (handleSave bandNineEdited { data := some bandNineEssay, error := false }
        emptyList).2 =
      [Request.update
        [(.title, .text "Band 9".toList),
         (.content, .text
           "The rapid growth of cities has created challenges. Governments must respond.".toList),
         (.word_count, .int 11),
         (.user_id, .nat 1)] 41, Request.select] ∧
    bandNineEdited.wordCount = (countWords (trim bandNineEdited.content) : Nat) := by
  have hreach : Reachable Essay.Consistent bandNineEdited :=
    Reachable.step _ _ (Reachable.step _ _ (Reachable.step _ _ Reachable.init
      (by
        simp only [Event.Admissible, LoadResponse.Valid]
        intro es hes e he
        cases hes
        rw [List.mem_singleton] at he
        subst he
        unfold Essay.Consistent
        decide))
      (by show bandNineEssay ∈ [bandNineEssay]; exact List.mem_singleton.mpr rfl)) trivial
  have hvalid : trim bandNineEdited.title ≠ [] ∧ trim bandNineEdited.content ≠ [] := by
    decide
  have h := handleSave_update_word_count Essay.Consistent bandNineEdited userOne bandNineEssay
    { data := some bandNineEssay, error := false } emptyList hreach hvalid rfl rfl
  exact ⟨hreach, hvalid, rfl, rfl, h.1.trans (by decide), h.2.2 (fun _ he => he)⟩

/-- C4: when the trimmed draft title or the trimmed draft content is empty, whatever the word
count, `handleSave` only shows the validation alert: it sends no request and the state (essay
list, selection, draft, saving flag) is the state before the call. -/
theorem handleSave_rejects_blank (s : State) (r : SaveResponse) (l : LoadResponse)
    (hblank : trim s.title = [] ∨ trim s.content = []) :
    handleSave s r l = (s, [.alert "Please enter both title and content"]) ∧
    requestsOf (handleSave s r l).2 = [] := by
  have h : handleSave s r l = (s, [.alert "Please enter both title and content"]) := by
    simp [handleSave, hblank]
  exact ⟨h, by rw [h]; rfl⟩

/-- C4, at a draft whose title is three blanks and whose content has two words. -/
theorem handleSave_rejects_blank_witness :
    (trim blankTitleDraft.title = [] ∨ trim blankTitleDraft.content = []) ∧
    blankTitleDraft.wordCount = 2 ∧
    handleSave blankTitleDraft { data := some bandNineEssay, error := false } emptyList
      = (blankTitleDraft, [.alert "Please enter both title and content"]) ∧
    requestsOf (handleSave blankTitleDraft { data := some bandNineEssay, error := false }
      emptyList).2 = [] :=
  ⟨by decide, by decide,
    handleSave_rejects_blank blankTitleDraft _ _ (by decide)⟩

/-- C5, as stated, fails: the update request that `handleSave` sends for `bandNineEdited` also
writes the column `user_id` (the owner), not only `title`, `content` and `word_count`. -/
theorem handleSave_update_writes_user_id :
    (trim bandNineEdited.title ≠ [] ∧ trim bandNineEdited.content ≠ []) ∧
    bandNineEdited.selectedEssay = some bandNineEssay ∧ bandNineEdited.user = some userOne ∧
    requestsOf (handleSave bandNineEdited { data := some bandNineEssay, error := false }
        { data := some [bandNineEssay], error := false }).2 =
      [Request.update (essayData bandNineEdited userOne) 41, Request.select] ∧
    (essayData bandNineEdited userOne).map Prod.fst ≠ [.title, .content, .word_count] ∧
    (Column.user_id, Value.nat 1) ∈ essayData bandNineEdited userOne := by
  decide

/-- C5, amended: the update request of a `handleSave` that passes validation with an essay
selected writes exactly the columns `title`, `content`, `word_count` and `user_id`, the last one
set to the identifier of the acting user; it writes neither `created_at` nor `id`, so a row
updated with this payload keeps its creation time and its identifier, and its owner becomes
(that is, stays, for a row owned by the acting user) the acting user. -/
theorem handleSave_update_columns (s : State) (usr : User) (e : Essay)
    (r : SaveResponse) (l : LoadResponse)
    (hvalid : trim s.title ≠ [] ∧ trim s.content ≠ [])
    (hsel : s.selectedEssay = some e) (husr : s.user = some usr) :
    requestsOf (handleSave s r l).2 =
      Request.update (essayData s usr) e.id :: (if r.error then [] else [.select]) ∧
    (essayData s usr).map Prod.fst = [.title, .content, .word_count, .user_id] ∧
    (Column.user_id, Value.nat usr.id) ∈ essayData s usr ∧
    ∀ row : Essay,
      (applyUpdate row (essayData s usr)).created_at = row.created_at ∧
      (applyUpdate row (essayData s usr)).id = row.id ∧
      (applyUpdate row (essayData s usr)).user_id = usr.id ∧
      (row.user_id = usr.id → (applyUpdate row (essayData s usr)).user_id = row.user_id) := by
  refine ⟨?_, rfl, by simp [essayData], ?_⟩
  · rw [requestsOf_handleSave s usr r l hvalid husr, hsel]
  · intro row
    refine ⟨rfl, rfl, rfl, fun h => ?_⟩
    rw [h]; rfl

/-- C5, amended, at the edited `Band 9` essay. -/
theorem handleSave_update_columns_witness :
    (trim bandNineEdited.title ≠ [] ∧ trim bandNineEdited.content ≠ []) ∧
    bandNineEdited.selectedEssay = some bandNineEssay ∧ bandNineEdited.user = some userOne ∧
    (applyUpdate bandNineEssay (essayData bandNineEdited userOne)).created_at = 1000 ∧
    (applyUpdate bandNineEssay (essayData bandNineEdited userOne)).user_id = 1 ∧
    (applyUpdate bandNineEssay (essayData bandNineEdited userOne)).word_count = 11 :=
  ⟨by decide, rfl, rfl,
    ((handleSave_update_columns bandNineEdited userOne bandNineEssay
      { data := some bandNineEssay, error := false } emptyList (by decide) rfl rfl).2.2.2
        bandNineEssay).1,
    by decide, by decide⟩

/-- C6, as stated, fails: a failed list request leaves the list of `staleSelected`, which holds
one essay, as it was; the list is not reset to empty. -/
theorem loadEssays_error_does_not_reset :
    failedList.error = true ∧
    staleSelected.essays = [staleEssay] ∧
    (loadEssays staleSelected failedList).1.essays = [staleEssay] ∧
    (loadEssays staleSelected failedList).1.essays ≠ [] := by
  decide

/-- C6, amended: when the list request of `loadEssays` fails, the essay list after `loadEssays`
is the list before it, and the loading flag is cleared; no other state cell changes. -/
theorem loadEssays_error_keeps_list (s : State) (l : LoadResponse) (herr : l.error = true) :
    (loadEssays s l).1 = { s with isLoading := false } ∧
    (loadEssays s l).1.essays = s.essays ∧
    (loadEssays s l).1.isLoading = false := by
  simp [loadEssays, herr]

/-- C6, amended, at a list of one essay. -/
theorem loadEssays_error_keeps_list_witness :
    failedList.error = true ∧
    (loadEssays staleSelected failedList).1 = { staleSelected with isLoading := false } ∧
    (loadEssays staleSelected failedList).1.essays = staleSelected.essays ∧
    (loadEssays staleSelected failedList).1.isLoading = false :=
  ⟨rfl, loadEssays_error_keeps_list staleSelected failedList rfl⟩

/-- C7, as stated, fails: after the callback of `onAuthStateChange` has run without a session
user in the state `bandNineEdited`, the user and the essay list are cleared, but the essay is
still selected and the draft title, the draft content and the word count are still there. -/
theorem onAuthStateChange_signed_out_keeps_draft :
    (onAuthStateChange bandNineEdited none emptyList).1.user = none ∧
    (onAuthStateChange bandNineEdited none emptyList).1.essays = [] ∧
    (onAuthStateChange bandNineEdited none emptyList).1.selectedEssay = some bandNineEssay ∧
    (onAuthStateChange bandNineEdited none emptyList).1.title = "Band 9".toList ∧
    (onAuthStateChange bandNineEdited none emptyList).1.content ≠ [] ∧
    (onAuthStateChange bandNineEdited none emptyList).1.wordCount = 11 := by
  decide

/-- C7, amended: after the callback of `onAuthStateChange` has run without a session user, the
user identity is none and the essay list is empty; the selected essay, the draft title, the
draft content, the word count and the flags are what they were, and no request is sent. -/
theorem onAuthStateChange_signed_out (s : State) (l : LoadResponse) :
    onAuthStateChange s none l = ({ s with user := none, essays := [] }, []) ∧
    (onAuthStateChange s none l).1.user = none ∧
    (onAuthStateChange s none l).1.essays = [] ∧
    (onAuthStateChange s none l).1.selectedEssay = s.selectedEssay ∧
    (onAuthStateChange s none l).1.title = s.title ∧
    (onAuthStateChange s none l).1.content = s.content ∧
    (onAuthStateChange s none l).1.wordCount = s.wordCount :=
  ⟨rfl, rfl, rfl, rfl, rfl, rfl, rfl⟩

/-- C8: a confirmed and successful `handleDeleteEssay` for an identifier and title (in particular
those of an essay of the current list) clears the editor to the new-essay state when the selected
essay has that identifier, and otherwise leaves the selection, the draft title, the draft content
and the word count as they were. -/
theorem handleDeleteEssay_success (s : State) (essayId : EssayId) (essayTitle : Text)
    (d : DeleteResponse) (l : LoadResponse) (hok : d.error = false) :
    ((∃ sel, s.selectedEssay = some sel ∧ sel.id = essayId) →
      (handleDeleteEssay s essayId essayTitle true d l).1.selectedEssay = none ∧
      (handleDeleteEssay s essayId essayTitle true d l).1.title = [] ∧
      (handleDeleteEssay s essayId essayTitle true d l).1.content = [] ∧
      (handleDeleteEssay s essayId essayTitle true d l).1.wordCount = 0) ∧
    ((¬ ∃ sel, s.selectedEssay = some sel ∧ sel.id = essayId) →
      (handleDeleteEssay s essayId essayTitle true d l).1.selectedEssay = s.selectedEssay ∧
      (handleDeleteEssay s essayId essayTitle true d l).1.title = s.title ∧
      (handleDeleteEssay s essayId essayTitle true d l).1.content = s.content ∧
      (handleDeleteEssay s essayId essayTitle true d l).1.wordCount = s.wordCount) ∧
    requestsOf (handleDeleteEssay s essayId essayTitle true d l).2 = [.delete essayId, .select] := by
  have hiff : (∃ sel, s.selectedEssay = some sel ∧ sel.id = essayId) ↔
      s.selectedEssay.map (fun e => e.id) = some essayId := by
    cases s.selectedEssay <;> simp
  refine ⟨fun h => ?_, fun h => ?_, ?_⟩
  · have h' := hiff.mp h
    simp [handleDeleteEssay, hok, h, h', loadEssays_selectedEssay, loadEssays_title,
      loadEssays_content, loadEssays_wordCount, handleNewEssay]
  · have h' := fun hh => h (hiff.mpr hh)
    simp [handleDeleteEssay, hok, h, h', loadEssays_selectedEssay, loadEssays_title,
      loadEssays_content, loadEssays_wordCount]
  · cases hl : l.error <;> simp [handleDeleteEssay, hok, loadEssays, hl, requestsOf]

/-- C8, at a list of two essays with `bandNineEssay` selected: deleting the selected essay 41
clears the editor, and deleting the other essay of the list, 7, leaves the selection and the
draft alone. -/
theorem handleDeleteEssay_success_witness :
    bandNineAmongTwo.essays = [bandNineEssay, staleEssay] ∧
    bandNineAmongTwo.selectedEssay = some bandNineEssay ∧
    ((handleDeleteEssay bandNineAmongTwo 41 "Band 9".toList true { error := false }
        { data := some [staleEssay], error := false }).1.selectedEssay = none ∧
      (handleDeleteEssay bandNineAmongTwo 41 "Band 9".toList true { error := false }
        { data := some [staleEssay], error := false }).1.title = [] ∧
      (handleDeleteEssay bandNineAmongTwo 41 "Band 9".toList true { error := false }
        { data := some [staleEssay], error := false }).1.content = [] ∧
      (handleDeleteEssay bandNineAmongTwo 41 "Band 9".toList true { error := false }
        { data := some [staleEssay], error := false }).1.wordCount = 0) ∧
    ((handleDeleteEssay bandNineAmongTwo 7 "Cities".toList true { error := false }
        { data := some [bandNineEssay], error := false }).1.selectedEssay
          = bandNineAmongTwo.selectedEssay ∧
      (handleDeleteEssay bandNineAmongTwo 7 "Cities".toList true { error := false }
        { data := some [bandNineEssay], error := false }).1.title = bandNineAmongTwo.title ∧
      (handleDeleteEssay bandNineAmongTwo 7 "Cities".toList true { error := false }
        { data := some [bandNineEssay], error := false }).1.content
          = bandNineAmongTwo.content ∧
      (handleDeleteEssay bandNineAmongTwo 7 "Cities".toList true { error := false }
        { data := some [bandNineEssay], error := false }).1.wordCount
          = bandNineAmongTwo.wordCount) :=
  ⟨rfl, rfl,
    (handleDeleteEssay_success bandNineAmongTwo 41 "Band 9".toList { error := false }
      { data := some [staleEssay], error := false } rfl).1 ⟨bandNineEssay, rfl, rfl⟩,
    (handleDeleteEssay_success bandNineAmongTwo 7 "Cities".toList { error := false }
      { data := some [bandNineEssay], error := false } rfl).2.1 (by decide)⟩

/-- C9: when the user declines the confirmation, `handleDeleteEssay` sends no request and the
whole state is the state before the call. -/
theorem handleDeleteEssay_declined (s : State) (essayId : EssayId) (essayTitle : Text)
    (d : DeleteResponse) (l : LoadResponse) :
    handleDeleteEssay s essayId essayTitle false d l = (s, [.confirm essayTitle]) ∧
    (handleDeleteEssay s essayId essayTitle false d l).1 = s ∧
    requestsOf (handleDeleteEssay s essayId essayTitle false d l).2 = [] :=
  ⟨rfl, rfl, rfl⟩

/-- C10: when the draft passes validation and the insert or update request fails, `handleSave`
changes nothing but the saving flag, which it clears: the selected essay, the draft title, the
draft content and the essay list are the same, and no list request is sent. -/
theorem handleSave_failure_keeps_draft (s : State) (r : SaveResponse) (l : LoadResponse)
    (hvalid : trim s.title ≠ [] ∧ trim s.content ≠ []) (herr : r.error = true) :
    (handleSave s r l).1 = { s with isSaving := false } ∧
    (handleSave s r l).1.selectedEssay = s.selectedEssay ∧
    (handleSave s r l).1.title = s.title ∧
    (handleSave s r l).1.content = s.content ∧
    (handleSave s r l).1.essays = s.essays ∧
    (handleSave s r l).1.isSaving = false ∧
    Request.select ∉ requestsOf (handleSave s r l).2 := by
  have hv : ¬ (trim s.title = [] ∨ trim s.content = []) := by
    rintro (h | h)
    · exact hvalid.1 h
    · exact hvalid.2 h
  cases hu : s.user with
  | none => simp [handleSave, hv, hu, requestsOf]
  | some usr =>
    cases hsel : s.selectedEssay <;> simp [handleSave, hv, hu, herr, hsel, requestsOf]

/-- C10, at the draft `Band 9` (an insert that fails). -/
theorem handleSave_failure_keeps_draft_witness :
    (trim bandNineDraft.title ≠ [] ∧ trim bandNineDraft.content ≠ []) ∧
    (handleSave bandNineDraft { data := none, error := true } emptyList).1
      = { bandNineDraft with isSaving := false } ∧
    (handleSave bandNineDraft { data := none, error := true } emptyList).1.content
      = "The rapid growth of cities has created challenges.".toList :=
  ⟨by decide,
    (handleSave_failure_keeps_draft bandNineDraft { data := none, error := true } emptyList
      (by decide) rfl).1,
    (handleSave_failure_keeps_draft bandNineDraft { data := none, error := true } emptyList
      (by decide) rfl).2.2.2.1⟩

end PrepWriting
